import Mathlib

/-!
Verification of the Similarity Detection Engine of the AIDR-Bastion repository.

Shallow embedding conventions:
* Python strings are `List Char`; `str.strip()` is `pyStrip`.
* Python floats (similarity scores, thresholds) are modelled as `ℚ`.
* A raised exception is `Except.error`; a function whose Python body catches
  every exception is total and returns a plain value.
* External library calls (the nltk sentence tokenizer, `re.split`, the
  SentenceTransformer embedding model and the Qdrant network client) are
  parameters collected in an environment record `SimEnv`; the repository's own
  logic is translated definition by definition from `src/`.
* Python dicts keyed by strings preserve insertion order; they are modelled as
  association lists in insertion order.
-/

set_option linter.unusedVariables false

deriving instance DecidableEq for Except

/-- Action attached to a triggered rule (`RuleAction` in `app/core/enums.py`). -/
inductive RuleAction where
  | NOTIFY
  | BLOCK
  deriving DecidableEq, Repr

/-- Overall status of a pipeline result.  `BLOCK`, `NOTIFY`, `ERROR` come from
`ActionStatus` and `CLEAR` from `PipelineLabel` in `app/core/enums.py`; the
spec treats `CLEAR`/`ALLOW` as the same verdict. -/
inductive PipeStatus where
  | CLEAR
  | BLOCK
  | NOTIFY
  | ERROR
  deriving DecidableEq, Repr

/-- One triggered rule of the final output.  The pydantic model
`TriggeredRuleData` itself is in `app/models/pipeline.py`, which is not under
`src/`; its field set is taken from the constructor calls in
`app/managers/similarity/clients/base.py` and `qdrant.py`.  The `id` and
`name` fields receive `point.payload.get(...)` values which may be `None`,
hence `Option String`. -/
structure TriggeredRuleData where
  action : RuleAction
  id : Option String
  name : Option String
  details : String
  body : String
  deriving DecidableEq, Repr

/-- Result of one engine run (`PipelineResult` in `app/models/pipeline.py`,
not under `src/`; field set taken from the constructor calls in
`base.py`, `manager.py` and `pipeline.py`). -/
structure PipelineResult where
  name : String
  status : PipeStatus
  triggered_rules : List TriggeredRuleData
  details : Option String
  deriving DecidableEq, Repr

/-- One raw hit of the Qdrant backend (`ScoredPoint`): a score plus the
payload fields the code reads with `point.payload.get(...)`. -/
structure ScoredPoint where
  score : ℚ
  payloadId : Option String
  payloadCategory : Option String
  payloadDetails : Option String
  payloadText : Option String
  deriving DecidableEq, Repr

/-- One entry of the list returned by
`AsyncQdrantClientWrapper.search_similar_documents`: the Python dict
`{"_score": ..., "_source": {id, category, details, text}}` built in
`qdrant.py` lines 131-146. -/
structure Hit where
  score : ℚ
  sourceId : Option String
  sourceCategory : Option String
  sourceDetails : String
  sourceText : String
  deriving DecidableEq, Repr

/-- One entry of the list built by
`BaseSearchClientMethods.__search_similar_documents` (base.py lines 290-301):
a surviving hit annotated with its derived action. -/
structure SimilarDoc where
  action : RuleAction
  doc_id : Option String
  name : Option String
  details : String
  body : String
  score : ℚ
  deriving DecidableEq, Repr

/-- Environment of external collaborators for one engine run.
`tokenize` is `nltk.sent_tokenize` (`Except.error` = the tokenizer raised),
`rawSplit` is `re.split` over the fallback pattern of
`_fallback_sentence_split`, `embed` is `text_embedding` (raises `ValueError`
when no model is configured), `indexExistsOk` is the result of
`_index_exists` (which catches its own exceptions and returns a plain bool),
and `backendSearch` is `AsyncQdrantClient.search`, taking the query vector,
the `limit` argument and the `score_threshold` argument. -/
structure SimEnv where
  tokenize : List Char → Except String (List (List Char))
  rawSplit : List Char → List (List Char)
  embed : List Char → Except String (List ℚ)
  notify_threshold : ℚ
  block_threshold : ℚ
  indexExistsOk : Bool
  backendSearch : List ℚ → Nat → ℚ → Except String (List ScoredPoint)

/-! ## Sentence segmentation (`app/utils.py` lines 81-141) -/

/-- Python `str.strip()`: drop leading and trailing whitespace. -/
def pyStrip (l : List Char) : List Char :=
  ((l.dropWhile Char.isWhitespace).reverse.dropWhile Char.isWhitespace).reverse

/-- Python `re.sub(r"\s+", " ", s)`: collapse every maximal whitespace run to
a single space (utils.py line 138). -/
def collapseWs : List Char → List Char
  | [] => []
  | c :: rest =>
    if c.isWhitespace then
      Char.ofNat 32 :: collapseWs (rest.dropWhile Char.isWhitespace)
    else
      c :: collapseWs rest
  termination_by l => l.length
  decreasing_by
  · simp only [List.length_cons]
    exact Nat.lt_succ_of_le (List.dropWhile_sublist _).length_le
  · simp

/-- Cleaning loop of `_fallback_sentence_split` (utils.py lines 133-141):
strip each fragment, keep it when non-empty and longer than one character,
collapsing internal whitespace runs of the kept fragments. -/
def fallbackClean : List (List Char) → List (List Char)
  | [] => []
  | s :: rest =>
    let s2 := pyStrip s
    if s2 ≠ [] ∧ 1 < s2.length then collapseWs s2 :: fallbackClean rest
    else fallbackClean rest

/-- `_fallback_sentence_split` (utils.py lines 111-141): `re.split` over the
sentence-terminator pattern (external, `env.rawSplit`), then the cleaning
loop. -/
def fallback_sentence_split (env : SimEnv) (text : List Char) : List (List Char) :=
  fallbackClean (env.rawSplit text)

/-- Cleaning loop of `split_text_into_sentences` (utils.py lines 102-108):
strip each sentence and keep it when non-empty and longer than one
character. -/
def cleanSentences : List (List Char) → List (List Char)
  | [] => []
  | s :: rest =>
    let s2 := pyStrip s
    if s2 ≠ [] ∧ 1 < s2.length then s2 :: cleanSentences rest
    else cleanSentences rest

/-- `split_text_into_sentences` (utils.py lines 81-108): empty or
whitespace-only input yields `[]`; otherwise tokenize the stripped text with
nltk, falling back to the regex splitter when the tokenizer raises, and clean
the fragments. -/
def split_text_into_sentences (env : SimEnv) (text : List Char) : List (List Char) :=
  if text.isEmpty || (pyStrip text).isEmpty then []
  else
    let stripped := pyStrip text
    let sentences :=
      match env.tokenize stripped with
      | .ok s => s
      | .error _ => fallback_sentence_split env stripped
    cleanSentences sentences

/-! ## Qdrant backend client (`app/managers/similarity/clients/qdrant.py`) -/

/-- Conversion of one `ScoredPoint` into the response dict built in
`qdrant.py` lines 136-144: `details` and `text` use `payload.get(key, "")`,
`id` and `category` use `payload.get(key)`. -/
def pointToHit (p : ScoredPoint) : Hit :=
  { score := p.score
    sourceId := p.payloadId
    sourceCategory := p.payloadCategory
    sourceDetails := p.payloadDetails.getD ""
    sourceText := p.payloadText.getD "" }

/-- Per-response dedup loop of `search_similar_documents` (qdrant.py lines
131-146).  The Python code fills a dict keyed by `category`, inserting only
when the category is absent, and returns the dict values; since a Python dict
iterates in insertion order, the values are exactly the first-seen point per
category, in order of first occurrence.  `seen` is the key set of the dict. -/
def dedupByCategoryGo (seen : List (Option String)) : List ScoredPoint → List Hit
  | [] => []
  | p :: rest =>
    if p.payloadCategory ∈ seen then dedupByCategoryGo seen rest
    else pointToHit p :: dedupByCategoryGo (p.payloadCategory :: seen) rest

/-- `documents = {}` … `return list(documents.values())` of qdrant.py lines
132-146. -/
def dedupByCategory (points : List ScoredPoint) : List Hit :=
  dedupByCategoryGo [] points

/-- Observable outcome of one `search_similar_documents` call:  the returned
list, which warnings were logged, and the `limit` argument of every backend
search call that was issued. -/
structure SearchOutcome where
  result : List Hit
  invalidWarning : Bool
  dimWarning : Bool
  backendCalls : List Nat
  deriving DecidableEq, Repr

/-- `AsyncQdrantClientWrapper.search_similar_documents` (qdrant.py lines
84-150).  An empty vector returns `[]` at once with an invalid-vector
warning (the `isinstance` test cannot fail in a typed embedding); a dimension
other than 768 only logs a warning; a missing collection returns `[]`; the
backend is queried once with `limit=5` and `score_threshold=notify_threshold`,
and any backend exception is caught, yielding `[]` — there is no second,
degraded query. -/
def search_similar_documents (env : SimEnv) (vector : List ℚ) : SearchOutcome :=
  if vector.isEmpty then
    { result := [], invalidWarning := true, dimWarning := false, backendCalls := [] }
  else
    let dimWarn : Bool := vector.length != 768
    if env.indexExistsOk = false then
      { result := [], invalidWarning := false, dimWarning := dimWarn, backendCalls := [] }
    else
      match env.backendSearch vector 5 env.notify_threshold with
      | .error _ =>
        { result := [], invalidWarning := false, dimWarning := dimWarn, backendCalls := [5] }
      | .ok points =>
        { result := dedupByCategory points, invalidWarning := false, dimWarning := dimWarn,
          backendCalls := [5] }

/-! ## Threshold classification and the engine run
(`app/managers/similarity/clients/base.py`, `BaseSearchClientMethods`) -/

/-- `BaseSearchClientMethods._get_action` (base.py lines 257-272):
`score >= block_threshold` gives `BLOCK`, otherwise `NOTIFY`. -/
def get_action (block_threshold : ℚ) (score : ℚ) : RuleAction :=
  if block_threshold ≤ score then .BLOCK else .NOTIFY

/-- Body of the comprehension in `__search_similar_documents` (base.py lines
290-301): one surviving hit annotated with its action. -/
def hitToSimilarDoc (env : SimEnv) (h : Hit) : SimilarDoc :=
  { action := get_action env.block_threshold h.score
    doc_id := h.sourceId
    name := h.sourceCategory
    details := h.sourceDetails
    body := h.sourceText
    score := h.score }

/-- Comprehension of `__search_similar_documents` (base.py lines 290-301):
keep only hits with `_score > notify_threshold` and annotate each with its
action. -/
def filterAndClassify (env : SimEnv) (hits : List Hit) : List SimilarDoc :=
  (hits.filter (fun h => env.notify_threshold < h.score)).map (hitToSimilarDoc env)

/-- `BaseSearchClientMethods.__search_similar_documents` (base.py lines
274-301): embed the chunk (`text_embedding` raises when no model is loaded —
the one uncaught exception of the engine run), search, filter and classify. -/
def search_similar_chunk (env : SimEnv) (chunk : List Char) : Except String (List SimilarDoc) :=
  match env.embed chunk with
  | .error e => .error e
  | .ok vector => .ok (filterAndClassify env (search_similar_documents env vector).result)

/-- Structurally recursive worker for `batches`: `fuel` bounds the number of
loop iterations.  With a positive batch size every iteration consumes at
least one element, so `fuel = l.length` suffices (`batchesAux_fuel_eq`
below makes the fuel irrelevant). -/
def batchesAux (n : Nat) : Nat → List α → List (List α)
  | _, [] => []
  | 0, _ :: _ => []
  | fuel + 1, a :: rest =>
    (a :: rest).take n :: batchesAux n fuel ((a :: rest).drop n)

/-- Batch partition of the run loop (base.py lines 321-323):
`for i in range(0, len(chunks), batch_size): batch = chunks[i:i+batch_size]`.
The code fixes `batch_size = 5`; `range` with step 0 would raise in Python,
so only positive sizes are meaningful. -/
def batches (n : Nat) (l : List α) : List (List α) :=
  batchesAux n l.length l

/-- One batch of the run loop: `asyncio.gather` over the chunk tasks followed
by `extend` of every per-chunk result, in order.  `gather` propagates the
exception of a failing task; sequential error propagation models this. -/
def run_batch (env : SimEnv) : List (List Char) → Except String (List SimilarDoc)
  | [] => .ok []
  | chunk :: rest =>
    match search_similar_chunk env chunk with
    | .error e => .error e
    | .ok docs =>
      match run_batch env rest with
      | .error e => .error e
      | .ok more => .ok (docs ++ more)

/-- The batch loop of `run` (base.py lines 321-327): batches are processed
strictly in order and their results concatenated. -/
def run_batches (env : SimEnv) : List (List (List Char)) → Except String (List SimilarDoc)
  | [] => .ok []
  | batch :: rest =>
    match run_batch env batch with
    | .error e => .error e
    | .ok docs =>
      match run_batches env rest with
      | .error e => .error e
      | .ok more => .ok (docs ++ more)

/-! ## Cross-chunk dedup (`AsyncQdrantClientWrapper.prepare_triggered_rules`,
qdrant.py lines 207-235) -/

/-- Replacement of the value stored under `d.doc_id`, preserving the
insertion position — `deduplicated_docs[doc_id] = doc` on an existing key. -/
def replaceByDocId (d : SimilarDoc) : List SimilarDoc → List SimilarDoc
  | [] => []
  | e :: rest => if e.doc_id == d.doc_id then d :: rest else e :: replaceByDocId d rest

/-- One iteration of the dedup loop (qdrant.py lines 221-224):
`if doc_id not in deduplicated_docs or doc["score"] > deduplicated_docs[doc_id]["score"]:
deduplicated_docs[doc_id] = doc`. -/
def dedupStep (acc : List SimilarDoc) (d : SimilarDoc) : List SimilarDoc :=
  match acc.find? (fun e => e.doc_id == d.doc_id) with
  | none => acc ++ [d]
  | some e => if e.score < d.score then replaceByDocId d acc else acc

/-- The dedup dict of `prepare_triggered_rules`, as its insertion-ordered
value list. -/
def dedupByDocId (docs : List SimilarDoc) : List SimilarDoc :=
  docs.foldl dedupStep []

/-- Conversion of a deduplicated doc into a `TriggeredRuleData`
(qdrant.py lines 226-235). -/
def toTriggeredRule (d : SimilarDoc) : TriggeredRuleData :=
  { action := d.action, id := d.doc_id, name := d.name, details := d.details, body := d.body }

/-- `AsyncQdrantClientWrapper.prepare_triggered_rules` (qdrant.py lines
207-235): dedup by `doc_id` keeping the higher score, then convert. -/
def prepare_triggered_rules (docs : List SimilarDoc) : List TriggeredRuleData :=
  (dedupByDocId docs).map toTriggeredRule

/-- Modelled from the spec: the helper `self._pipeline_status` called in
`BaseSearchClientMethods.run` (base.py line 331) is defined in pipeline/model
code of this repository that is not under `src/` (`app/models/pipeline.py` /
the pipeline base class).  Spec section 4.5 step 8: no triggered rules gives
CLEAR/ALLOW, any rule with action BLOCK gives BLOCK, otherwise NOTIFY. -/
def pipeline_status (rules : List TriggeredRuleData) : PipeStatus :=
  if rules.isEmpty then .CLEAR
  else if rules.any (fun r => r.action == .BLOCK) then .BLOCK
  else .NOTIFY

/-- `BaseSearchClientMethods.run` (base.py lines 303-332) as executed by the
Qdrant client (whose `prepare_triggered_rules` override performs the doc-id
dedup): segment, process the chunk batches, dedup, and build the result. -/
def client_run (env : SimEnv) (text : List Char) : Except String PipelineResult :=
  match run_batches env (batches 5 (split_text_into_sentences env text)) with
  | .error e => .error e
  | .ok docs =>
    .ok { name := "Qdrant Client"
          status := pipeline_status (prepare_triggered_rules docs)
          triggered_rules := prepare_triggered_rules docs
          details := none }

/-! ## Manager state machine (`app/core/manager.py`,
`app/managers/similarity/manager.py`) -/

/-- One similarity search client as the manager sees it.  The only attribute
the manager reads or writes is `enabled`.  `BaseSearchClient` declares no
`enabled` attribute and no similarity client ever assigns one at
construction, so the attribute starts out absent; `none` models the absent
attribute (reading it raises `AttributeError`), `some b` an assigned bool. -/
structure SimClient where
  enabled : Option Bool
  deriving DecidableEq, Repr

/-- Mutable state of a `SimilarityManager`: the insertion-ordered client dict
and the two active-client fields.  `active_client` holds the map key of the
object `_active_client` references (client objects are uniquely keyed);
`active_client_id` is `_active_client_id`, which the fallback branch of
`_set_active_client` can leave different from the active client's key. -/
structure ManagerState where
  clients_map : List (String × SimClient)
  active_client : Option String
  active_client_id : Option String
  deriving DecidableEq, Repr

/-- Truthiness of the Python value returned by `check_connection`:
`None` is falsy. -/
def truthyOpt : Option Bool → Bool
  | none => false
  | some b => b

/-- Return/raise behaviour of `BaseSearchClient.check_connection` (base.py
lines 83-102): it raises `ConfigurationException` when ping or the index
check fails, and otherwise falls through, returning Python `None`. -/
def check_connection_value (connectionOk : Bool) : Except String (Option Bool) :=
  if connectionOk then .ok none else .error "ConfigurationException"

/-- `SimilarityManager._check_connections` (manager.py lines 47-62):
`status = await client.check_connection(); if status: client.enabled = True`.
An exception is caught and logged.  `conn id` says whether the connection
check of client `id` succeeds. -/
def check_connections (conn : String → Bool) (st : ManagerState) : ManagerState :=
  { st with
    clients_map := st.clients_map.map (fun kv =>
      match check_connection_value (conn kv.1) with
      | .ok status =>
        if truthyOpt status then (kv.1, { kv.2 with enabled := some true }) else kv
      | .error _ => kv) }

/-- `BaseManager._set_active_client` (core/manager.py lines 92-114).
A `None` argument is replaced by the configured default id
(`getattr(settings, ..., None)` = `defaultId`).  When the id resolves in the
map, `client.enabled is False` refuses the switch — but reading `enabled`
raises `AttributeError` when the attribute was never assigned.  When the id
does not resolve and no client is active, the first client of the map is
activated without any enabled check, and `_active_client_id` is set to
`getattr(client, "identifier", None)`, which is `None` because the clients
define `_identifier`, not `identifier`. -/
def set_active_client (defaultId : Option String) (st : ManagerState)
    (clientId : Option String) : Except String ManagerState :=
  let cid := match clientId with
    | none => defaultId
    | some c => some c
  match cid.bind (fun c => st.clients_map.find? (fun kv => kv.1 == c)) with
  | some kv =>
    match kv.2.enabled with
    | none => .error "AttributeError: enabled"
    | some false => .ok st
    | some true => .ok { st with active_client := some kv.1, active_client_id := cid }
  | none =>
    if st.active_client = none ∧ st.clients_map ≠ [] then
      match st.clients_map with
      | [] => .ok st
      | kv :: _ => .ok { st with active_client := some kv.1, active_client_id := none }
    else .ok st

/-- `BaseManager.switch_active_client` (core/manager.py lines 145-157):
re-run `_set_active_client` and report whether the active id changed. -/
def switch_active_client (defaultId : Option String) (st : ManagerState)
    (clientId : String) : Except String (ManagerState × Bool) :=
  match set_active_client defaultId st (some clientId) with
  | .error e => .error e
  | .ok st2 => .ok (st2, st.active_client_id != st2.active_client_id)

/-- States a `SimilarityManager` can reach: the freshly constructed state
(every similarity client starts with no `enabled` attribute, no client
active), followed by any sequence of `_check_connections`,
`_set_active_client` and `switch_active_client` steps; `_activate_clients`
is `_check_connections` followed by `_set_active_client None`. -/
inductive Reachable (defaultId : Option String) : ManagerState → Prop
  | init (clients : List (String × SimClient))
      (hinit : clients.all (fun kv => kv.2.enabled == none) = true) :
      Reachable defaultId
        { clients_map := clients, active_client := none, active_client_id := none }
  | check (conn : String → Bool) {st : ManagerState} :
      Reachable defaultId st → Reachable defaultId (check_connections conn st)
  | setActive (cid : Option String) {st st2 : ManagerState} :
      Reachable defaultId st → set_active_client defaultId st cid = .ok st2 →
      Reachable defaultId st2
  | switchA (cid : String) {st st2 : ManagerState} {b : Bool} :
      Reachable defaultId st → switch_active_client defaultId st cid = .ok (st2, b) →
      Reachable defaultId st2

/-- Python `f"...{x}..."` formatting of an optional string: `None` prints as
`"None"`. -/
def pyShowOpt : Option String → String
  | none => "None"
  | some s => s

/-- `SimilarityManager.run` (manager.py lines 80-113): with no active client,
return an ERROR result at once; otherwise delegate to the active client's
`run` and convert any exception into an ERROR result.  The returned state is
the manager state after the call. -/
def manager_run (env : SimEnv) (st : ManagerState) (text : List Char) :
    PipelineResult × ManagerState :=
  match st.active_client with
  | none =>
    ({ name := "Similarity Manager", status := .ERROR, triggered_rules := [],
       details := some "No active search client available for similarity search" }, st)
  | some _ =>
    match client_run env text with
    | .ok r => (r, st)
    | .error e =>
      ({ name := "Similarity Manager", status := .ERROR, triggered_rules := [],
         details := some ("Error during similarity search with "
           ++ pyShowOpt st.active_client_id ++ ": " ++ e) }, st)

/-- `SimilarityPipeline.run` (pipelines/similarity_pipeline/pipeline.py lines
37-56): delegate to `SimilarityManager.run` inside a try/except that turns an
exception into an ERROR result; since `manager_run` is total (every path of
the Python method catches), the except branch is unreachable and the pipeline
returns the manager's result. -/
def similarity_pipeline_run (env : SimEnv) (st : ManagerState) (text : List Char) :
    PipelineResult :=
  (manager_run env st text).1

/-! ## Concrete sample data used to evaluate the model -/

/-- Sample backend hit: a weapons-category document matching at score 0.95
(scores are scaled by 100 to integer-valued rationals). -/
def pointW : ScoredPoint :=
  { score := 95, payloadId := some "X", payloadCategory := some "weapons",
    payloadDetails := some "details", payloadText := some "body" }

/-- Sample environment: the tokenizer returns the whole text as one
sentence, the embedder returns a fixed vector, the collection exists and the
backend answers every query with the single hit `pointW`.  Thresholds are the
configured defaults 0.7/0.87, scaled by 100. -/
def envW : SimEnv :=
  { tokenize := fun s => .ok [s]
    rawSplit := fun _ => []
    embed := fun _ => .ok [1]
    notify_threshold := 70
    block_threshold := 87
    indexExistsOk := true
    backendSearch := fun _ _ _ => .ok [pointW] }

/-- Environment whose backend fails the `limit=5` query but would answer a
`limit=3` query with `pointW`. -/
def envRetry : SimEnv :=
  { envW with backendSearch := fun _ limit _ =>
      if limit == 5 then .error "ConnectionError" else .ok [pointW] }

/-- Environment whose embedding model is not configured: `text_embedding`
raises `ValueError`. -/
def envErr : SimEnv :=
  { envW with embed := fun _ => .error "EmbeddingUnavailable" }

/-- The triggered rule produced by `envW` on any non-trivial text. -/
def ruleW : TriggeredRuleData :=
  { action := .BLOCK, id := some "X", name := some "weapons",
    details := "details", body := "body" }

/-- The pipeline result produced by `envW` on a one-sentence text. -/
def rBlockW : PipelineResult :=
  { name := "Qdrant Client", status := .BLOCK, triggered_rules := [ruleW], details := none }

/-- A manager state with no clients and no active client. -/
def stNoActive : ManagerState :=
  { clients_map := [], active_client := none, active_client_id := none }

/-- A manager state with one enabled, active client. -/
def stActive : ManagerState :=
  { clients_map := [("qdrant", { enabled := some true })],
    active_client := some "qdrant", active_client_id := some "qdrant" }

/-- A similarity client as constructed: the `enabled` attribute absent. -/
def c3_client : SimClient := { enabled := none }

/-- Freshly constructed manager state with the single client `qdrant`. -/
def c3_init : ManagerState :=
  { clients_map := [("qdrant", c3_client)], active_client := none, active_client_id := none }

/-- The state reached from `c3_init` by a successful connection check
followed by `_set_active_client(None)` with default id `elasticsearch`:
the never-enabled `qdrant` client becomes active through the iteration-order
fallback, and `_active_client_id` stays `None`. -/
def c3_bad : ManagerState :=
  { clients_map := [("qdrant", c3_client)], active_client := some "qdrant",
    active_client_id := none }

/-- Two docs sharing `doc_id = "X"` with scores 0.75 and 0.92, as in the
spec's cross-chunk dedup example. -/
def docLow : SimilarDoc :=
  { action := .NOTIFY, doc_id := some "X", name := some "weapons",
    details := "low", body := "low body", score := 75 }

/-- Companion of `docLow` with the higher score. -/
def docHigh : SimilarDoc :=
  { action := .BLOCK, doc_id := some "X", name := some "weapons",
    details := "high", body := "high body", score := 92 }

/-- Higher-scored of two same-category backend points. -/
def pW92 : ScoredPoint :=
  { score := 92, payloadId := some "A", payloadCategory := some "weapons",
    payloadDetails := some "dA", payloadText := some "tA" }

/-- Lower-scored of two same-category backend points. -/
def pW75 : ScoredPoint :=
  { score := 75, payloadId := some "B", payloadCategory := some "weapons",
    payloadDetails := some "dB", payloadText := some "tB" }

/-- Descending-score sortedness assumed of backend responses. -/
def sortedDesc (points : List ScoredPoint) : Prop :=
  points.Pairwise (fun a b => b.score ≤ a.score)

/-- Invariant of the doc-id dedup dict relative to the processed docs:
its keys are duplicate-free, its values come from the processed docs, and
every processed doc is dominated by the stored value under its key. -/
def DedupInv (docs acc : List SimilarDoc) : Prop :=
  (acc.map SimilarDoc.doc_id).Nodup ∧
  (∀ e ∈ acc, e ∈ docs) ∧
  (∀ d ∈ docs, ∃ e ∈ acc, e.doc_id = d.doc_id ∧ d.score ≤ e.score)

/-! ## Helper lemmas -/

/-- Unfolding of the spec-modelled status rule into its three cases. -/
lemma pipeline_status_spec (rules : List TriggeredRuleData) :
    (rules = [] → pipeline_status rules = .CLEAR) ∧
    ((∃ tr ∈ rules, tr.action = .BLOCK) → pipeline_status rules = .BLOCK) ∧
    (rules ≠ [] → (∀ tr ∈ rules, tr.action ≠ .BLOCK) → pipeline_status rules = .NOTIFY) := by
  refine ⟨?_, ?_, ?_⟩
  · intro h
    simp [pipeline_status, h]
  · rintro ⟨tr, htr, hact⟩
    have hne : rules.isEmpty = false := by
      cases rules with
      | nil => cases htr
      | cons a l => rfl
    have hany : rules.any (fun r => r.action == RuleAction.BLOCK) = true := by
      rw [List.any_eq_true]
      exact ⟨tr, htr, by rw [hact]; rfl⟩
    simp [pipeline_status, hne, hany]
  · intro hne hall
    have hisempty : rules.isEmpty = false := by
      cases rules with
      | nil => exact absurd rfl hne
      | cons a l => rfl
    have hany : rules.any (fun r => r.action == RuleAction.BLOCK) = false := by
      rw [Bool.eq_false_iff]
      intro hcontra
      rw [List.any_eq_true] at hcontra
      obtain ⟨tr, htr, hb⟩ := hcontra
      exact hall tr htr (beq_iff_eq.mp hb)
    simp [pipeline_status, hisempty, hany]

/-- Successful run results of `client_run` always come out of the final
`PipelineResult` constructor call of `run` (base.py lines 330-332). -/
lemma client_run_ok (env : SimEnv) (text : List Char) (r : PipelineResult) :
    client_run env text = .ok r →
    ∃ docs, run_batches env (batches 5 (split_text_into_sentences env text)) = .ok docs ∧
      r = { name := "Qdrant Client"
            status := pipeline_status (prepare_triggered_rules docs)
            triggered_rules := prepare_triggered_rules docs
            details := none } := by
  intro h
  unfold client_run at h
  cases hb : run_batches env (batches 5 (split_text_into_sentences env text)) with
  | error e => rw [hb] at h; cases h
  | ok docs =>
    rw [hb] at h
    refine ⟨docs, rfl, ?_⟩
    cases h
    rfl

/-- The fuel of `batchesAux` is irrelevant as soon as it reaches the list
length, for positive batch sizes. -/
lemma batchesAux_fuel_eq (n : Nat) :
    ∀ (fuel1 : Nat) (l : List α) (fuel2 : Nat), l.length ≤ fuel1 → l.length ≤ fuel2 →
      batchesAux (n + 1) fuel1 l = batchesAux (n + 1) fuel2 l := by
  intro fuel1
  induction fuel1 with
  | zero =>
    intro l fuel2 h1 h2
    have : l = [] := List.eq_nil_of_length_eq_zero (Nat.le_zero.mp h1)
    subst this
    cases fuel2 <;> rfl
  | succ f ih =>
    intro l fuel2 h1 h2
    cases l with
    | nil => cases fuel2 <;> rfl
    | cons a rest =>
      cases fuel2 with
      | zero => exact absurd h2 (by simp)
      | succ f2 =>
        unfold batchesAux
        rw [ih ((a :: rest).drop (n + 1)) f2]
        · calc ((a :: rest).drop (n + 1)).length ≤ rest.length := by
                simp only [List.length_drop, List.length_cons]
                omega
            _ ≤ f := Nat.le_of_succ_le_succ (by simpa using h1)
        · calc ((a :: rest).drop (n + 1)).length ≤ rest.length := by
                simp only [List.length_drop, List.length_cons]
                omega
            _ ≤ f2 := Nat.le_of_succ_le_succ (by simpa using h2)

/-- Characteristic equations of `batches`, matching the Python slice loop. -/
lemma batches_cons (n : Nat) (a : α) (rest : List α) :
    batches (n + 1) (a :: rest) =
      (a :: rest).take (n + 1) :: batches (n + 1) ((a :: rest).drop (n + 1)) := by
  show batchesAux (n + 1) (a :: rest).length (a :: rest) = _
  simp only [List.length_cons, batchesAux]
  rw [batchesAux_fuel_eq n rest.length ((a :: rest).drop (n + 1)) ((a :: rest).drop (n + 1)).length]
  · rfl
  · simp only [List.length_drop, List.length_cons]
    omega
  · exact Nat.le_refl _

/-! ## Claim theorems -/

/-- C6: a hit returned by a chunk's backend search becomes a candidate iff
its score is strictly greater than `notify_threshold`, and the action of a
surviving candidate is `BLOCK` iff its score is at least `block_threshold`,
otherwise `NOTIFY` (base.py lines 257-272 and 290-301). -/
theorem c6_threshold_classification :
    ∀ (env : SimEnv) (hits : List Hit) (d : SimilarDoc),
      (d ∈ filterAndClassify env hits ↔
        ∃ h, h ∈ hits ∧ env.notify_threshold < h.score ∧ d = hitToSimilarDoc env h) ∧
      (∀ h : Hit, (hitToSimilarDoc env h).action = get_action env.block_threshold h.score) ∧
      (∀ score : ℚ,
        (get_action env.block_threshold score = .BLOCK ↔ env.block_threshold ≤ score) ∧
        (get_action env.block_threshold score = .NOTIFY ↔ score < env.block_threshold)) := by
  intro env hits d
  refine ⟨?_, fun h => rfl, ?_⟩
  · unfold filterAndClassify
    rw [List.mem_map]
    constructor
    · rintro ⟨h, hmem, rfl⟩
      rw [List.mem_filter] at hmem
      exact ⟨h, hmem.1, of_decide_eq_true hmem.2, rfl⟩
    · rintro ⟨h, hmem, hscore, rfl⟩
      exact ⟨h, List.mem_filter.mpr ⟨hmem, decide_eq_true hscore⟩, rfl⟩
  · intro score
    by_cases hb : env.block_threshold ≤ score
    · simp [get_action, hb, not_lt.mpr hb]
    · simp [get_action, hb, lt_of_not_ge hb]

/-- C6 witness: with thresholds 0.70/0.87, the 0.95-score hit of `pointW`
survives the notify filter and is classified BLOCK. -/
theorem c6_threshold_classification_witness :
    hitToSimilarDoc envW (pointToHit pointW) ∈ filterAndClassify envW [pointToHit pointW] ∧
    get_action envW.block_threshold 95 = .BLOCK := by
  constructor
  · exact (c6_threshold_classification envW [pointToHit pointW]
      (hitToSimilarDoc envW (pointToHit pointW))).1.mpr
      ⟨pointToHit pointW, by decide, by decide, rfl⟩
  · exact ((c6_threshold_classification envW [] (hitToSimilarDoc envW (pointToHit pointW))).2.2
      95).1.mpr (by decide)

/-- C9: a non-empty query vector of any dimension is passed on to the
backend — a dimension other than 768 only sets the warning flag, the call is
still issued with `limit=5` and the processed backend hits are returned;
only the empty vector short-circuits to an immediate empty result with no
backend call (qdrant.py lines 98-129). -/
theorem c9_dimension_mismatch_no_abort :
    (∀ (env : SimEnv) (v : List ℚ) (points : List ScoredPoint),
      v ≠ [] → env.indexExistsOk = true →
      env.backendSearch v 5 env.notify_threshold = .ok points →
      (search_similar_documents env v).result = dedupByCategory points ∧
      (search_similar_documents env v).backendCalls = [5] ∧
      (v.length ≠ 768 → (search_similar_documents env v).dimWarning = true)) ∧
    (∀ env : SimEnv,
      search_similar_documents env [] =
        { result := [], invalidWarning := true, dimWarning := false, backendCalls := [] }) := by
  constructor
  · intro env v points hv hex hb
    have hvE : v.isEmpty = false := by
      cases v with
      | nil => exact absurd rfl hv
      | cons a t => rfl
    unfold search_similar_documents
    simp only [hvE, hex, hb, Bool.false_eq_true, if_false]
    simp only [show (true = false) = False from by simp, if_false]
    refine ⟨trivial, trivial, ?_⟩
    intro hdim
    simp [bne_iff_ne, hdim]
  · intro env
    unfold search_similar_documents
    rfl

/-- C9 witness: a 300-dimensional vector is not aborted — `envW`'s backend
hit comes back with the dimension warning set. -/
theorem c9_dimension_mismatch_no_abort_witness :
    (search_similar_documents envW (List.replicate 300 1)).result = dedupByCategory [pointW] ∧
    (search_similar_documents envW (List.replicate 300 1)).backendCalls = [5] ∧
    (search_similar_documents envW (List.replicate 300 1)).dimWarning = true := by
  have h300 : List.replicate 300 (1 : ℚ) ≠ [] := by
    intro h
    have hlen := congrArg List.length h
    rw [List.length_replicate] at hlen
    cases hlen
  obtain ⟨h1, h2, h3⟩ := c9_dimension_mismatch_no_abort.1 envW (List.replicate 300 1) [pointW]
    h300 rfl rfl
  refine ⟨h1, h2, h3 ?_⟩
  rw [List.length_replicate]
  decide

/-- C4 counterexample: the claim's degraded retry does not exist.  With a
backend that fails the `limit=5` query but would answer a `limit=3` query
with a non-empty hit list, `search_similar_documents` issues exactly one
backend call (with `limit=5`) and returns the empty list — it does not retry
with `k=3`, which would have produced the hit (qdrant.py lines 122-150
return `[]` from the except branch with no second query). -/
theorem c4_no_degraded_retry_counterexample :
    envRetry.backendSearch [1] 5 envRetry.notify_threshold = .error "ConnectionError" ∧
    envRetry.backendSearch [1] 3 envRetry.notify_threshold = .ok [pointW] ∧
    dedupByCategory [pointW] ≠ [] ∧
    (search_similar_documents envRetry [1]).backendCalls = [5] ∧
    (search_similar_documents envRetry [1]).backendCalls ≠ [5, 3] ∧
    (search_similar_documents envRetry [1]).result = [] := by
  refine ⟨by decide, by decide, by decide, by decide, by decide, by decide⟩

/-- C4 as amended: when the backend search call fails, the Qdrant
`search_similar_documents` makes no retry of any kind — it returns the empty
list after the single failed `limit=5` call, and the exception does not
propagate (the function is total). -/
theorem c4_failure_returns_empty_without_retry :
    ∀ (env : SimEnv) (v : List ℚ) (e : String),
      v ≠ [] → env.indexExistsOk = true →
      env.backendSearch v 5 env.notify_threshold = .error e →
      (search_similar_documents env v).result = [] ∧
      (search_similar_documents env v).backendCalls = [5] := by
  intro env v e hv hex hb
  have hvE : v.isEmpty = false := by
    cases v with
    | nil => exact absurd rfl hv
    | cons a t => rfl
  unfold search_similar_documents
  simp only [hvE, hex, hb, Bool.false_eq_true, if_false]
  simp only [show (true = false) = False from by simp, if_false]
  exact ⟨trivial, trivial⟩

/-- C4 witness: the amended theorem evaluated on the failing backend of the
counterexample environment. -/
theorem c4_failure_returns_empty_without_retry_witness :
    (search_similar_documents envRetry [1]).result = [] ∧
    (search_similar_documents envRetry [1]).backendCalls = [5] := by
  exact c4_failure_returns_empty_without_retry envRetry [1] "ConnectionError"
    (by decide) rfl (by decide)

/-- C10: `SimilarityManager.run` never modifies the manager's own state —
client map and both active-client fields are unchanged by a run, whether the
run succeeds, fails in the client, or finds no active client
(manager.py lines 80-113 only read `self._active_client` and
`self._active_client_id`). -/
theorem c10_manager_run_preserves_state :
    ∀ (env : SimEnv) (st : ManagerState) (text : List Char),
      (manager_run env st text).2 = st ∧
      (manager_run env st text).2.clients_map = st.clients_map ∧
      (manager_run env st text).2.active_client = st.active_client ∧
      (manager_run env st text).2.active_client_id = st.active_client_id := by
  intro env st text
  have h : (manager_run env st text).2 = st := by
    unfold manager_run
    cases st.active_client with
    | none => rfl
    | some c =>
      cases client_run env text with
      | error e => rfl
      | ok r => rfl
  exact ⟨h, by rw [h], by rw [h], by rw [h]⟩

/-- C5: the similarity run entry points always return a `PipelineResult` and
never raise (both are total functions of the embedding — every Python path
catches): with no active client the result is an immediate ERROR with a
details message and no triggered rules; an exception escaping segmentation,
embedding or backend calls becomes an ERROR result whose details contain the
error message; a successful client run is passed through unchanged
(manager.py lines 80-113, pipeline.py lines 37-56). -/
theorem c5_entry_points_never_raise :
    ∀ (env : SimEnv) (st : ManagerState) (text : List Char),
      (st.active_client = none →
        manager_run env st text =
          ({ name := "Similarity Manager", status := .ERROR, triggered_rules := [],
             details := some "No active search client available for similarity search" }, st) ∧
        similarity_pipeline_run env st text =
          { name := "Similarity Manager", status := .ERROR, triggered_rules := [],
            details := some "No active search client available for similarity search" }) ∧
      (∀ (c : String) (e : String),
        st.active_client = some c → client_run env text = .error e →
        (similarity_pipeline_run env st text).status = .ERROR ∧
        (similarity_pipeline_run env st text).triggered_rules = [] ∧
        (similarity_pipeline_run env st text).details =
          some ("Error during similarity search with "
            ++ pyShowOpt st.active_client_id ++ ": " ++ e)) ∧
      (∀ (c : String) (r : PipelineResult),
        st.active_client = some c → client_run env text = .ok r →
        similarity_pipeline_run env st text = r) := by
  intro env st text
  refine ⟨?_, ?_, ?_⟩
  · intro hnone
    unfold similarity_pipeline_run manager_run
    rw [hnone]
    exact ⟨rfl, rfl⟩
  · intro c e hsome herr
    unfold similarity_pipeline_run manager_run
    rw [hsome, herr]
    exact ⟨rfl, rfl, rfl⟩
  · intro c r hsome hok
    unfold similarity_pipeline_run manager_run
    rw [hsome, hok]

/-- C5 witness: the no-active-client state gives the immediate ERROR result,
and an unconfigured embedding model (`envErr`) gives an ERROR result whose
details carry the raised message. -/
theorem c5_entry_points_never_raise_witness :
    manager_run envW stNoActive "hi".toList =
      ({ name := "Similarity Manager", status := .ERROR, triggered_rules := [],
         details := some "No active search client available for similarity search" },
        stNoActive) ∧
    (similarity_pipeline_run envErr stActive "hello".toList).status = .ERROR ∧
    (similarity_pipeline_run envErr stActive "hello".toList).details =
      some "Error during similarity search with qdrant: EmbeddingUnavailable" := by
  refine ⟨((c5_entry_points_never_raise envW stNoActive "hi".toList).1 rfl).1, ?_, ?_⟩
  · exact ((c5_entry_points_never_raise envErr stActive "hello".toList).2.1 "qdrant"
      "EmbeddingUnavailable" rfl (by decide)).1
  · exact ((c5_entry_points_never_raise envErr stActive "hello".toList).2.1 "qdrant"
      "EmbeddingUnavailable" rfl (by decide)).2.2

/-- C1: for every engine run that completes (`client_run` returns `ok`), the
overall status is derived from the triggered-rule set — empty gives CLEAR,
any BLOCK-action rule gives BLOCK, otherwise NOTIFY — and empty or
whitespace-only input yields status CLEAR with no triggered rules
(the status helper is modelled from the spec, see `pipeline_status`). -/
theorem c1_overall_status :
    (∀ (env : SimEnv) (text : List Char) (r : PipelineResult),
      client_run env text = .ok r →
        (r.triggered_rules = [] → r.status = .CLEAR) ∧
        ((∃ tr ∈ r.triggered_rules, tr.action = .BLOCK) → r.status = .BLOCK) ∧
        (r.triggered_rules ≠ [] → (∀ tr ∈ r.triggered_rules, tr.action ≠ .BLOCK) →
          r.status = .NOTIFY)) ∧
    (∀ (env : SimEnv) (text : List Char), pyStrip text = [] →
      client_run env text =
        .ok { name := "Qdrant Client", status := .CLEAR, triggered_rules := [],
              details := none }) := by
  constructor
  · intro env text r hr
    obtain ⟨docs, hdocs, rfl⟩ := client_run_ok env text r hr
    exact pipeline_status_spec (prepare_triggered_rules docs)
  · intro env text hstrip
    have hsplit : split_text_into_sentences env text = [] := by
      unfold split_text_into_sentences
      rw [hstrip]
      simp
    unfold client_run
    rw [hsplit]
    rfl

/-- C1 witness: a one-sentence text matching the 0.95-score weapons document
yields overall BLOCK, and a whitespace-only text yields CLEAR with no
triggered rules. -/
theorem c1_overall_status_witness :
    rBlockW.status = .BLOCK ∧
    client_run envW "  ".toList =
      .ok { name := "Qdrant Client", status := .CLEAR, triggered_rules := [],
            details := none } := by
  constructor
  · exact (c1_overall_status.1 envW "hello".toList rBlockW (by decide)).2.1
      ⟨ruleW, by decide, by decide⟩
  · exact c1_overall_status.2 envW "  ".toList (by decide)

/-- C3 (code bug): a reachable manager state has an active client that is
not enabled.  From the constructed single-client state, a successful
connection check changes nothing — `check_connection` returns `None`, so the
truthiness test in `_check_connections` (manager.py lines 54-60) can never
execute `client.enabled = True` — and `_set_active_client(None)` with a
default id that is not in the map activates the first constructed client
through the fallback branch (core/manager.py lines 109-112) without any
enabled check, leaving `_active_client_id = None` as well (the fallback reads
the non-existent attribute `identifier`). -/
theorem c3_fallback_activates_never_enabled_client :
    check_connections (fun _ => true) c3_init = c3_init ∧
    set_active_client (some "elasticsearch") c3_init none = .ok c3_bad ∧
    Reachable (some "elasticsearch") c3_bad ∧
    c3_bad.active_client = some "qdrant" ∧
    c3_bad.clients_map = [("qdrant", { enabled := none })] ∧
    c3_bad.active_client_id = none := by
  have hcheck : check_connections (fun _ => true) c3_init = c3_init := by decide
  have hset : set_active_client (some "elasticsearch") c3_init none = .ok c3_bad := by decide
  refine ⟨hcheck, hset, ?_, rfl, rfl, rfl⟩
  have h0 : Reachable (some "elasticsearch") c3_init :=
    Reachable.init [("qdrant", c3_client)] (by decide)
  have h1 := Reachable.check (fun _ => true) h0
  rw [hcheck] at h1
  exact Reachable.setActive none h1 hset

/-- Head of a `dropWhile` result never satisfies the predicate. -/
lemma dropWhile_head_false (p : α → Bool) :
    ∀ (l : List α) (c : α) (rest : List α), l.dropWhile p = c :: rest → p c = false := by
  intro l
  induction l with
  | nil => intro c rest h; cases h
  | cons a t ih =>
    intro c rest h
    rw [List.dropWhile_cons] at h
    by_cases hpa : p a = true
    · rw [if_pos hpa] at h
      exact ih c rest h
    · rw [if_neg hpa] at h
      cases h
      simpa using hpa

/-- `dropWhile` is idempotent. -/
lemma dropWhile_idem (p : α → Bool) (l : List α) :
    (l.dropWhile p).dropWhile p = l.dropWhile p := by
  cases h : l.dropWhile p with
  | nil => rfl
  | cons c rest =>
    rw [List.dropWhile_cons, dropWhile_head_false p l c rest h]
    simp

/-- Python `strip` is idempotent. -/
lemma pyStrip_idem (l : List Char) : pyStrip (pyStrip l) = pyStrip l := by
  unfold pyStrip
  generalize hA : l.dropWhile Char.isWhitespace = A
  have hsplit : A = (A.reverse.dropWhile Char.isWhitespace).reverse
      ++ (A.reverse.takeWhile Char.isWhitespace).reverse := by
    have h1 : A.reverse.takeWhile Char.isWhitespace ++ A.reverse.dropWhile Char.isWhitespace
        = A.reverse := List.takeWhile_append_dropWhile _ _
    have h2 := congrArg List.reverse h1
    rw [List.reverse_append, List.reverse_reverse] at h2
    exact h2.symm
  have hBdrop : ((A.reverse.dropWhile Char.isWhitespace).reverse).dropWhile Char.isWhitespace
      = (A.reverse.dropWhile Char.isWhitespace).reverse := by
    cases hB : (A.reverse.dropWhile Char.isWhitespace).reverse with
    | nil => rfl
    | cons c rest =>
      rw [List.dropWhile_cons]
      have hAc : A = c :: (rest ++ (A.reverse.takeWhile Char.isWhitespace).reverse) := by
        conv_lhs => rw [hsplit, hB]
        rfl
      have hc : Char.isWhitespace c = false := by
        apply dropWhile_head_false Char.isWhitespace l
        rw [hA]
        exact hAc
      rw [hc]
      simp
  rw [hBdrop, List.reverse_reverse, dropWhile_idem]

/-- Unfolding equation of the cleaning loop. -/
lemma cleanSentences_cons (t : List Char) (rest : List (List Char)) :
    cleanSentences (t :: rest) =
      if pyStrip t ≠ [] ∧ 1 < (pyStrip t).length then pyStrip t :: cleanSentences rest
      else cleanSentences rest := rfl

/-- Every fragment kept by the cleaning loop of `split_text_into_sentences`
is the strip of an input sentence, non-empty, and longer than one
character. -/
lemma mem_cleanSentences :
    ∀ (l : List (List Char)) (s : List Char), s ∈ cleanSentences l →
      ∃ t ∈ l, s = pyStrip t ∧ s ≠ [] ∧ 1 < s.length := by
  intro l
  induction l with
  | nil =>
    intro s h
    cases h
  | cons t rest ih =>
    intro s h
    by_cases hc : pyStrip t ≠ [] ∧ 1 < (pyStrip t).length
    · rw [cleanSentences_cons, if_pos hc] at h
      rcases List.mem_cons.mp h with rfl | h2
      · exact ⟨t, List.mem_cons_self t rest, rfl, hc.1, hc.2⟩
      · obtain ⟨u, hu, hs⟩ := ih s h2
        exact ⟨u, List.mem_cons_of_mem t hu, hs⟩
    · rw [cleanSentences_cons, if_neg hc] at h
      obtain ⟨u, hu, hs⟩ := ih s h
      exact ⟨u, List.mem_cons_of_mem t hu, hs⟩

/-- C7: every fragment returned by sentence segmentation is non-empty and
longer than one character, and is already trimmed (so the bounds also hold
after trimming); empty or whitespace-only input returns the empty list
rather than raising (utils.py lines 81-141; the property holds for every
behaviour of the external tokenizer and regex splitter). -/
theorem c7_segmentation_fragments :
    (∀ (env : SimEnv) (text s : List Char),
      s ∈ split_text_into_sentences env text →
      s ≠ [] ∧ 1 < s.length ∧ pyStrip s = s) ∧
    (∀ (env : SimEnv) (text : List Char), pyStrip text = [] →
      split_text_into_sentences env text = []) := by
  constructor
  · intro env text s hs
    unfold split_text_into_sentences at hs
    by_cases hempty : (text.isEmpty || (pyStrip text).isEmpty) = true
    · rw [if_pos hempty] at hs
      cases hs
    · rw [if_neg hempty] at hs
      obtain ⟨t, ht, rfl, hne, hlen⟩ := mem_cleanSentences _ s hs
      exact ⟨hne, hlen, pyStrip_idem t⟩
  · intro env text h
    unfold split_text_into_sentences
    rw [h]
    simp

/-- C7 witness: a two-word text comes back as one clean fragment, and a
whitespace-only text segments to the empty list. -/
theorem c7_segmentation_fragments_witness :
    ("ab c".toList ≠ [] ∧ 1 < "ab c".toList.length ∧ pyStrip "ab c".toList = "ab c".toList) ∧
    split_text_into_sentences envW "  ".toList = [] := by
  constructor
  · exact c7_segmentation_fragments.1 envW "ab c".toList "ab c".toList (by decide)
  · exact c7_segmentation_fragments.2 envW "  ".toList (by decide)

/-- Unfolding equation of the per-response category dedup loop. -/
lemma dedupGo_cons (seen : List (Option String)) (p : ScoredPoint) (rest : List ScoredPoint) :
    dedupByCategoryGo seen (p :: rest) =
      if p.payloadCategory ∈ seen then dedupByCategoryGo seen rest
      else pointToHit p :: dedupByCategoryGo (p.payloadCategory :: seen) rest := rfl

/-- The category dedup keeps pairwise-distinct categories, all of them
outside the already-seen key set. -/
lemma dedupGo_nodup :
    ∀ (points : List ScoredPoint) (seen : List (Option String)),
      ((dedupByCategoryGo seen points).map Hit.sourceCategory).Nodup ∧
      ∀ h ∈ dedupByCategoryGo seen points, h.sourceCategory ∉ seen := by
  intro points
  induction points with
  | nil =>
    intro seen
    exact ⟨List.nodup_nil, by intro h hmem; cases hmem⟩
  | cons p rest ih =>
    intro seen
    by_cases hc : p.payloadCategory ∈ seen
    · rw [dedupGo_cons, if_pos hc]
      exact ih seen
    · rw [dedupGo_cons, if_neg hc]
      obtain ⟨ihn, ihs⟩ := ih (p.payloadCategory :: seen)
      refine ⟨?_, ?_⟩
      · rw [List.map_cons, List.nodup_cons]
        refine ⟨?_, ihn⟩
        intro hmem
        rw [List.mem_map] at hmem
        obtain ⟨h2, h2mem, h2eq⟩ := hmem
        exact ihs h2 h2mem (h2eq ▸ List.mem_cons_self _ _)
      · intro h hmem
        rcases List.mem_cons.mp hmem with rfl | hmem2
        · exact hc
        · exact fun hin => ihs h hmem2 (List.mem_cons_of_mem _ hin)

/-- Every hit kept by the category dedup is the image of a point of the
response whose category is new relative to `seen`, and no earlier point of
the response shares its category outside `seen`. -/
lemma dedupGo_first :
    ∀ (points : List ScoredPoint) (seen : List (Option String)) (h : Hit),
      h ∈ dedupByCategoryGo seen points →
      ∃ pre p post, points = pre ++ p :: post ∧ h = pointToHit p ∧
        p.payloadCategory ∉ seen ∧
        ∀ q ∈ pre, q.payloadCategory ∈ seen ∨ q.payloadCategory ≠ p.payloadCategory := by
  intro points
  induction points with
  | nil =>
    intro seen h hmem
    cases hmem
  | cons p0 rest ih =>
    intro seen h
    by_cases hc : p0.payloadCategory ∈ seen
    · rw [dedupGo_cons, if_pos hc]
      intro hmem
      obtain ⟨pre, p, post, heq, hh, hns, hpre⟩ := ih seen h hmem
      refine ⟨p0 :: pre, p, post, by rw [heq]; rfl, hh, hns, ?_⟩
      intro q hq
      rcases List.mem_cons.mp hq with rfl | hq2
      · exact Or.inl hc
      · exact hpre q hq2
    · rw [dedupGo_cons, if_neg hc]
      intro hmem
      rcases List.mem_cons.mp hmem with rfl | hmem2
      · exact ⟨[], p0, rest, rfl, rfl, hc, by intro q hq; cases hq⟩
      · obtain ⟨pre, p, post, heq, hh, hns, hpre⟩ := ih (p0.payloadCategory :: seen) h hmem2
        refine ⟨p0 :: pre, p, post, by rw [heq]; rfl, hh,
          fun hin => hns (List.mem_cons_of_mem _ hin), ?_⟩
        intro q hq
        rcases List.mem_cons.mp hq with rfl | hq2
        · exact Or.inr fun hqp => hns (hqp ▸ List.mem_cons_self _ _)
        · rcases hpre q hq2 with hin | hne
          · rcases List.mem_cons.mp hin with heq2 | hin2
            · refine Or.inr fun hqp => hns ?_
              rw [← hqp, heq2]
              exact List.mem_cons_self _ _
            · exact Or.inl hin2
          · exact Or.inr hne

/-- C8: a single backend response is deduplicated by category — the returned
list carries pairwise-distinct categories, each returned hit is the
first-seen point of its category, and when the response is pre-sorted by
descending score the kept hit has the maximal score of its category
(qdrant.py lines 131-146). -/
theorem c8_response_category_dedup :
    (∀ points : List ScoredPoint,
      ((dedupByCategory points).map Hit.sourceCategory).Nodup) ∧
    (∀ (points : List ScoredPoint) (h : Hit), h ∈ dedupByCategory points →
      ∃ pre p post, points = pre ++ p :: post ∧ h = pointToHit p ∧
        ∀ q ∈ pre, q.payloadCategory ≠ p.payloadCategory) ∧
    (∀ points : List ScoredPoint, sortedDesc points →
      ∀ h ∈ dedupByCategory points, ∀ p ∈ points,
        p.payloadCategory = h.sourceCategory → p.score ≤ h.score) := by
  refine ⟨?_, ?_, ?_⟩
  · intro points
    exact (dedupGo_nodup points []).1
  · intro points h hmem
    obtain ⟨pre, p, post, heq, hh, hns, hpre⟩ := dedupGo_first points [] h hmem
    refine ⟨pre, p, post, heq, hh, ?_⟩
    intro q hq
    rcases hpre q hq with hin | hne
    · cases hin
    · exact hne
  · intro points hsort h hmem p hp hcat
    obtain ⟨pre, pk, post, heq, hh, hns, hpre⟩ := dedupGo_first points [] h hmem
    have hpair : (pre ++ pk :: post).Pairwise (fun a b => b.score ≤ a.score) := by
      rw [← heq]
      exact hsort
    have hcat2 : p.payloadCategory = pk.payloadCategory := by
      rw [hcat, hh]
      rfl
    have hscore : h.score = pk.score := by
      rw [hh]
      rfl
    rw [heq] at hp
    rcases List.mem_append.mp hp with hin_pre | hin_cons
    · rcases hpre p hin_pre with hin | hne
      · cases hin
      · exact absurd hcat2 hne
    · rcases List.mem_cons.mp hin_cons with rfl | hin_post
      · rw [hscore]
      · rw [hscore]
        exact (List.pairwise_cons.mp (List.pairwise_append.mp hpair).2.1).1 p hin_post

/-- C8 witness: two same-category points, pre-sorted by descending score,
dedup to the single higher-scored point. -/
theorem c8_response_category_dedup_witness :
    ((dedupByCategory [pW92, pW75]).map Hit.sourceCategory).Nodup ∧
    pW75.score ≤ (pointToHit pW92).score := by
  constructor
  · exact c8_response_category_dedup.1 [pW92, pW75]
  · have hsorted : sortedDesc [pW92, pW75] := by
      refine List.Pairwise.cons ?_ (List.pairwise_singleton _ _)
      intro b hb
      rw [List.mem_singleton] at hb
      rw [hb]
      decide
    exact c8_response_category_dedup.2.2 [pW92, pW75] hsorted (pointToHit pW92)
      (by decide) pW75 (by decide) (by decide)

/-- Replacing the stored doc under a key leaves the key sequence of the
dedup dict unchanged. -/
lemma replace_map_docId (d : SimilarDoc) :
    ∀ l : List SimilarDoc,
      (replaceByDocId d l).map SimilarDoc.doc_id = l.map SimilarDoc.doc_id := by
  intro l
  induction l with
  | nil => rfl
  | cons e rest ih =>
    unfold replaceByDocId
    by_cases hb : (e.doc_id == d.doc_id) = true
    · rw [if_pos hb]
      have : d.doc_id = e.doc_id := (beq_iff_eq.mp hb).symm
      simp only [List.map_cons, this]
    · rw [if_neg hb]
      simp only [List.map_cons, ih]

/-- Members of the replaced dict are the new doc or old members. -/
lemma mem_replace (d : SimilarDoc) :
    ∀ (l : List SimilarDoc) (x : SimilarDoc), x ∈ replaceByDocId d l → x = d ∨ x ∈ l := by
  intro l
  induction l with
  | nil =>
    intro x hx
    cases hx
  | cons e rest ih =>
    intro x hx
    unfold replaceByDocId at hx
    by_cases hb : (e.doc_id == d.doc_id) = true
    · rw [if_pos hb] at hx
      rcases List.mem_cons.mp hx with rfl | h2
      · exact Or.inl rfl
      · exact Or.inr (List.mem_cons_of_mem _ h2)
    · rw [if_neg hb] at hx
      rcases List.mem_cons.mp hx with rfl | h2
      · exact Or.inr (List.mem_cons_self _ _)
      · rcases ih x h2 with h3 | h3
        · exact Or.inl h3
        · exact Or.inr (List.mem_cons_of_mem _ h3)

/-- When some stored doc carries the new doc's key, the new doc is a member
after replacement. -/
lemma self_mem_replace (d : SimilarDoc) :
    ∀ l : List SimilarDoc, (∃ e ∈ l, e.doc_id = d.doc_id) → d ∈ replaceByDocId d l := by
  intro l
  induction l with
  | nil =>
    rintro ⟨e, he, hh⟩
    cases he
  | cons e rest ih =>
    rintro ⟨e2, he2, heq2⟩
    unfold replaceByDocId
    by_cases hb : (e.doc_id == d.doc_id) = true
    · rw [if_pos hb]
      exact List.mem_cons_self _ _
    · rw [if_neg hb]
      rcases List.mem_cons.mp he2 with rfl | h2
      · exact absurd (beq_iff_eq.mpr heq2) hb
      · exact List.mem_cons_of_mem _ (ih ⟨e2, h2, heq2⟩)

/-- Docs stored under other keys survive replacement. -/
lemma mem_replace_of_ne (d : SimilarDoc) :
    ∀ (l : List SimilarDoc) (x : SimilarDoc),
      x ∈ l → x.doc_id ≠ d.doc_id → x ∈ replaceByDocId d l := by
  intro l
  induction l with
  | nil =>
    intro x hx
    cases hx
  | cons e rest ih =>
    intro x hx hne
    unfold replaceByDocId
    rcases List.mem_cons.mp hx with rfl | h2
    · rw [if_neg (fun hb => hne (beq_iff_eq.mp hb))]
      exact List.mem_cons_self _ _
    · by_cases hb : (e.doc_id == d.doc_id) = true
      · rw [if_pos hb]
        exact List.mem_cons_of_mem _ h2
      · rw [if_neg hb]
        exact List.mem_cons_of_mem _ (ih x h2 hne)

/-- In a list with duplicate-free keys, the key determines the member. -/
lemma nodup_unique_docId :
    ∀ (l : List SimilarDoc), (l.map SimilarDoc.doc_id).Nodup →
      ∀ e ∈ l, ∀ e2 ∈ l, e.doc_id = e2.doc_id → e = e2 := by
  intro l
  induction l with
  | nil =>
    intro hnd e he
    cases he
  | cons a rest ih =>
    intro hnd e he e2 he2 heq
    rw [List.map_cons, List.nodup_cons] at hnd
    rcases List.mem_cons.mp he with rfl | he' <;> rcases List.mem_cons.mp he2 with rfl | he2'
    · rfl
    · exact absurd (heq ▸ List.mem_map_of_mem SimilarDoc.doc_id he2') hnd.1
    · exact absurd (heq ▸ List.mem_map_of_mem SimilarDoc.doc_id he') hnd.1
    · exact ih hnd.2 e he' e2 he2' heq

/-- One iteration of the doc-id dedup loop preserves the dict invariant,
extending the processed prefix by the handled doc. -/
lemma dedupStep_inv (processed acc : List SimilarDoc) (d : SimilarDoc)
    (hinv : DedupInv processed acc) : DedupInv (processed ++ [d]) (dedupStep acc d) := by
  obtain ⟨hnd, hsub, hcov⟩ := hinv
  unfold dedupStep
  cases hf : acc.find? (fun e => e.doc_id == d.doc_id) with
  | none =>
    have hnone : ∀ e ∈ acc, e.doc_id ≠ d.doc_id := by
      intro e he
      have h1 := List.find?_eq_none.mp hf e he
      simpa using h1
    refine ⟨?_, ?_, ?_⟩
    · rw [List.map_append, List.nodup_append]
      refine ⟨hnd, List.nodup_singleton _, ?_⟩
      intro x hx hx2
      rw [List.mem_map] at hx
      obtain ⟨e, he, rfl⟩ := hx
      simp only [List.map_cons, List.map_nil, List.mem_singleton] at hx2
      exact hnone e he hx2
    · intro e he
      rcases List.mem_append.mp he with h1 | h2
      · exact List.mem_append_left _ (hsub e h1)
      · rw [List.mem_singleton] at h2
        rw [h2]
        exact List.mem_append_right _ (List.mem_singleton_self _)
    · intro d2 hd2
      rcases List.mem_append.mp hd2 with h1 | h2
      · obtain ⟨e, he, heq, hle⟩ := hcov d2 h1
        exact ⟨e, List.mem_append_left _ he, heq, hle⟩
      · rw [List.mem_singleton] at h2
        subst h2
        exact ⟨d2, List.mem_append_right _ (List.mem_singleton_self _), rfl, le_refl _⟩
  | some e =>
    have hpe : e.doc_id = d.doc_id := by
      have h1 := List.find?_some hf
      simpa using h1
    have hme : e ∈ acc := List.mem_of_find?_eq_some hf
    by_cases hlt : e.score < d.score
    · show DedupInv (processed ++ [d]) (if e.score < d.score then replaceByDocId d acc else acc)
      rw [if_pos hlt]
      refine ⟨?_, ?_, ?_⟩
      · rw [replace_map_docId]
        exact hnd
      · intro x hx
        rcases mem_replace d acc x hx with rfl | h2
        · exact List.mem_append_right _ (List.mem_singleton_self _)
        · exact List.mem_append_left _ (hsub x h2)
      · intro d2 hd2
        have hd_in : d ∈ replaceByDocId d acc := self_mem_replace d acc ⟨e, hme, hpe⟩
        rcases List.mem_append.mp hd2 with h1 | h2
        · obtain ⟨e2, he2, heq2, hle2⟩ := hcov d2 h1
          by_cases hid : e2.doc_id = d.doc_id
          · have he2e : e2 = e :=
              nodup_unique_docId acc hnd e2 he2 e hme (by rw [hid, hpe])
            refine ⟨d, hd_in, by rw [← heq2, hid], ?_⟩
            calc d2.score ≤ e2.score := hle2
              _ = e.score := by rw [he2e]
              _ ≤ d.score := le_of_lt hlt
          · exact ⟨e2, mem_replace_of_ne d acc e2 he2 hid, heq2, hle2⟩
        · rw [List.mem_singleton] at h2
          rw [h2]
          exact ⟨d, hd_in, rfl, le_refl _⟩
    · show DedupInv (processed ++ [d]) (if e.score < d.score then replaceByDocId d acc else acc)
      rw [if_neg hlt]
      refine ⟨hnd, ?_, ?_⟩
      · intro x hx
        exact List.mem_append_left _ (hsub x hx)
      · intro d2 hd2
        rcases List.mem_append.mp hd2 with h1 | h2
        · obtain ⟨e2, he2, heq2, hle2⟩ := hcov d2 h1
          exact ⟨e2, he2, heq2, hle2⟩
        · rw [List.mem_singleton] at h2
          rw [h2]
          exact ⟨e, hme, hpe, le_of_not_lt hlt⟩

/-- Folding the dedup loop over remaining docs preserves the invariant. -/
lemma dedup_foldl_inv :
    ∀ (todo acc processed : List SimilarDoc), DedupInv processed acc →
      DedupInv (processed ++ todo) (todo.foldl dedupStep acc) := by
  intro todo
  induction todo with
  | nil =>
    intro acc processed h
    simpa using h
  | cons d rest ih =>
    intro acc processed h
    have h2 := ih (dedupStep acc d) (processed ++ [d]) (dedupStep_inv processed acc d h)
    rw [List.append_assoc] at h2
    simpa using h2

/-- The full doc-id dedup of `prepare_triggered_rules` satisfies the dict
invariant relative to its whole input. -/
lemma dedupByDocId_inv (docs : List SimilarDoc) : DedupInv docs (dedupByDocId docs) := by
  have hbase : DedupInv [] [] := by
    refine ⟨List.nodup_nil, ?_, ?_⟩
    · intro e he
      cases he
    · intro d hd
      cases hd
  have h := dedup_foldl_inv docs [] [] hbase
  simpa using h

/-- C2: the final triggered-rule list of an engine run carries pairwise
distinct doc ids, and for every doc of the union list the dedup keeps
exactly one representative of its doc id, with a score at least that of
every same-id doc (qdrant.py lines 207-235, called by `run` at base.py
line 328). -/
theorem c2_cross_chunk_docid_dedup :
    (∀ (env : SimEnv) (text : List Char) (r : PipelineResult),
      client_run env text = .ok r →
      (r.triggered_rules.map TriggeredRuleData.id).Nodup) ∧
    (∀ (docs : List SimilarDoc) (d : SimilarDoc), d ∈ docs →
      ∃ e, e ∈ dedupByDocId docs ∧ e ∈ docs ∧ e.doc_id = d.doc_id ∧
        (∀ d2 ∈ docs, d2.doc_id = d.doc_id → d2.score ≤ e.score) ∧
        toTriggeredRule e ∈ prepare_triggered_rules docs) := by
  constructor
  · intro env text r hr
    obtain ⟨docs, hdocs, rfl⟩ := client_run_ok env text r hr
    show ((prepare_triggered_rules docs).map TriggeredRuleData.id).Nodup
    unfold prepare_triggered_rules
    rw [List.map_map]
    have hcomp : (TriggeredRuleData.id ∘ toTriggeredRule) = SimilarDoc.doc_id := by
      funext x
      rfl
    rw [hcomp]
    exact (dedupByDocId_inv docs).1
  · intro docs d hd
    obtain ⟨hnd, hsub, hcov⟩ := dedupByDocId_inv docs
    obtain ⟨e, he, heq, hle⟩ := hcov d hd
    refine ⟨e, he, hsub e he, heq, ?_, ?_⟩
    · intro d2 hd2 hid2
      obtain ⟨e2, he2, heq2, hle2⟩ := hcov d2 hd2
      have he2e : e2 = e :=
        nodup_unique_docId (dedupByDocId docs) hnd e2 he2 e he (by rw [heq2, hid2, ← heq])
      rw [← he2e]
      exact hle2
    · unfold prepare_triggered_rules
      exact List.mem_map_of_mem toTriggeredRule he

/-- C2 witness: the spec's example — two hits for `doc_id = "X"` at scores
0.75 and 0.92 — dedups to the single 0.92 doc, and the run of the witness
environment yields duplicate-free rule ids. -/
theorem c2_cross_chunk_docid_dedup_witness :
    (rBlockW.triggered_rules.map TriggeredRuleData.id).Nodup ∧
    docHigh ∈ dedupByDocId [docLow, docHigh] ∧
    docHigh.doc_id = docLow.doc_id ∧
    docLow.score ≤ docHigh.score ∧
    toTriggeredRule docHigh ∈ prepare_triggered_rules [docLow, docHigh] := by
  refine ⟨c2_cross_chunk_docid_dedup.1 envW "hello".toList rBlockW (by decide), ?_⟩
  obtain ⟨e, he, hein, heq, hmax, hrule⟩ :=
    c2_cross_chunk_docid_dedup.2 [docLow, docHigh] docLow (List.mem_cons_self _ _)
  have hehigh : e = docHigh := by
    rcases List.mem_cons.mp hein with rfl | h1
    · exact absurd (hmax docHigh (by decide) (by decide)) (by decide)
    · rcases List.mem_cons.mp h1 with rfl | h2
      · rfl
      · cases h2
  subst hehigh
  exact ⟨he, heq, hmax docLow (List.mem_cons_self _ _) rfl, hrule⟩
